import Mathlib

/-!
Shallow embedding of the file-provider module
(src/file-provider.service.ts): the storage-backend gateway
(`FileProvider`) and its near-duplicate (`FilesServiceProvider`),
together with the image-quality-reduction loop.  JS strings are
modelled as Lean `String` (or `List Char` where character-level
parsing matters), machine numbers as `Nat`/`Rat`, filesystem and
bucket effects as explicit state passing, and fallible operations as
`Option`/`Except` or injected success flags.
-/

/-- ASCII lowercasing of one character, as JS `toLowerCase` acts on the
ASCII range (the only range the content-type table inspects). -/
def lowerChar (c : Char) : Char :=
  if 'A' ≤ c ∧ c ≤ 'Z' then Char.ofNat (c.toNat + 32) else c

/-- JS `s.toLowerCase()` on ASCII strings. -/
def jsToLowerCase (s : String) : String :=
  String.mk (s.data.map lowerChar)

/-- JS `\w` character class (ASCII word characters) extended with `'+'`,
i.e. the regex class `[\w+]` used by `extractBase64img`. -/
def isWordPlusChar (c : Char) : Bool :=
  c.isAlphanum || c = '_' || c = '+'

/-- Strip a literal character-list from the front of the input, or fail. -/
def stripLitChars : List Char → List Char → Option (List Char)
  | [], s => some s
  | _ :: _, [] => none
  | p :: ps, c :: cs => if c = p then stripLitChars ps cs else none

/-- One call made to the bucket provider (the opaque object-store
collaborator of §6): an upload or a delete of an object key. -/
inductive BucketOp where
  | upload (key : String)
  | delete (key : String)
deriving DecidableEq, Repr

/-- Whether a bucket operation is a delete. -/
def BucketOp.isDelete : BucketOp → Bool
  | .delete _ => true
  | .upload _ => false

/-- The `Files` entity row as used by the provider (id plus
`original_name`; the unused bookkeeping columns `created`/`path` are
carried as optional strings). -/
structure Files where
  id : Nat
  created : Option String
  path : Option String
  original_name : String
deriving DecidableEq, Repr

/-- Storage contents visible to `deleteFile`: which per-id disk
directories exist and which object keys exist in the bucket. -/
structure StorageState where
  diskDirs : List Nat
  bucketObjects : List String
deriving DecidableEq, Repr

/-- The `STORAGE_TYPE` configuration enum (`FILE_UPLOAD_TYPE`). -/
inductive StorageType where
  | disk
  | bucket
deriving DecidableEq, Repr

/-- `fs.rmSync(path, { recursive, force })` on a per-id directory:
with `force` set, removing an absent path is a no-op instead of an
`ENOENT` error. -/
def rmSync (_recursive force : Bool) (dirs : List Nat) (fileId : Nat) :
    Except String (List Nat) :=
  if fileId ∈ dirs then .ok (dirs.filter (fun d => d ≠ fileId))
  else if force then .ok dirs
  else .error "ENOENT"

/-- Modelled from the spec: `BucketProvider.deleteFile` is not under
src/ (only its call sites are).  Spec §6 gives the collaborator
operation `deleteObject(key) -> void` and §7 states that deletion is
deliberately lenient — removing an already-absent key is not an
error.  So the model always succeeds and removes the key if present. -/
def bucketDeleteObject (objects : List String) (key : String) :
    Except String (List String) :=
  .ok (objects.filter (fun k => k ≠ key))

namespace FileProvider

/-- `FileProvider.getContentType` (file-provider.service.ts lines
338-359): a `switch` on `fileExtension.toLowerCase()`; note the
`image/` and `video/` branches interpolate the ORIGINAL
`fileExtension`, not the lowered one. -/
def getContentType (fileExtension : String) : String :=
  if jsToLowerCase fileExtension = "xml" then "application/xml"
  else if jsToLowerCase fileExtension = "png" ∨ jsToLowerCase fileExtension = "jpg"
      ∨ jsToLowerCase fileExtension = "jpeg" ∨ jsToLowerCase fileExtension = "gif" then
    "image/" ++ fileExtension
  else if jsToLowerCase fileExtension = "mp4" ∨ jsToLowerCase fileExtension = "avi"
      ∨ jsToLowerCase fileExtension = "mov" then
    "video/" ++ fileExtension
  else if jsToLowerCase fileExtension = "mp3" ∨ jsToLowerCase fileExtension = "mpga" then
    "audio/mp3"
  else if jsToLowerCase fileExtension = "pdf" then "application/pdf"
  else "application/octet-stream"

/-- The regex `/^data:image\/([\w+]+);base64,([\s\S]+)/` of
`extractBase64img` (file-provider.service.ts line 266).  Since `';'`
is outside `[\w+]`, the greedy group 1 is exactly the maximal run of
word-or-plus characters after the literal head, and group 2 is the
whole (nonempty) remainder after the literal `";base64,"`. -/
def matchDataImageUri (data : List Char) : Option (List Char × List Char) :=
  (stripLitChars "data:image/".toList data).bind fun rest =>
    (stripLitChars ";base64,".toList (rest.dropWhile isWordPlusChar)).bind fun payload =>
      if rest.takeWhile isWordPlusChar = [] ∨ payload = [] then none
      else some (rest.takeWhile isWordPlusChar, payload)

/-- The `baseType` override table of `extractBase64img`
(lines 268-271): `jpeg → jpg` and `svg+xml → svg`, nothing else. -/
def baseTypeLookup (sub : List Char) : Option (List Char) :=
  if sub = "jpeg".toList then some "jpg".toList
  else if sub = "svg+xml".toList then some "svg".toList
  else none

/-- `FileProvider.extractBase64img` (lines 265-283), returning
`(extensionName, base64)`.  Note the result extension is always
`"." ++ …`, so a non-matching input yields the one-character
extension `"."`, with the content passed through unchanged. -/
def extractBase64img (data : List Char) : List Char × List Char :=
  match matchDataImageUri data with
  | some (sub, payload) =>
    ('.' :: (match baseTypeLookup sub with | some e => e | none => sub), payload)
  | none => ('.' :: [], data)

/-- Observable outcome of the disk branch of `uploadFiles`
(file-provider.service.ts lines 41-52), with the success of
`fs.promises.mkdir` and of the `fs.writeFile` callback injected as
flags: `raised` records whether a `BadRequestException` reaches the
caller, and `dirExists`/`fileExists` the final on-disk state for this
file id. -/
structure DiskUploadOutcome where
  raised : Bool
  dirExists : Bool
  fileExists : Bool
deriving DecidableEq, Repr

/-- Disk branch of `FileProvider.uploadFiles` (lines 28-57).  The
`mkdir` is awaited inside the try/catch, so its failure is rethrown
as a `BadRequestException`.  The `fs.writeFile` call is
fire-and-forget: its callback removes the directory recursively on
error, but no failure ever propagates to the caller. -/
def uploadFilesDisk (mkdirOk writeOk : Bool) : DiskUploadOutcome :=
  if mkdirOk then
    if writeOk then { raised := false, dirExists := true, fileExists := true }
    else { raised := false, dirExists := false, fileExists := false }
  else { raised := true, dirExists := false, fileExists := false }

/-- Bucket branch of `FileProvider.updateFile` (lines 155-160),
returning whether an error is raised to the caller and the trace of
bucket-provider calls.  The branch only uploads
`` `${fileId}/${originalName}` ``; it never deletes the prior
object. -/
def updateFileBucket (uploadOk : Bool) (fileId : Nat) (originalName : String) :
    Bool × List BucketOp :=
  if uploadOk then (false, [.upload (toString fileId ++ "/" ++ originalName)])
  else (true, [.upload (toString fileId ++ "/" ++ originalName)])

/-- `FileProvider.deleteFile` (lines 195-206): bucket mode awaits the
collaborator's lenient delete of `` `${id}/${original_name}` ``; disk
mode calls `fs.rmSync(storagePath, { recursive: true, force: true })`. -/
def deleteFile (storageType : StorageType) (st : StorageState) (fileData : Files) :
    Except String StorageState :=
  match storageType with
  | .bucket =>
    (bucketDeleteObject st.bucketObjects
        (toString fileData.id ++ "/" ++ fileData.original_name)).map
      fun objs => { st with bucketObjects := objs }
  | .disk =>
    (rmSync true true st.diskDirs fileData.id).map
      fun dirs => { st with diskDirs := dirs }

/-- `FileProvider.getFilePathByFileId` (lines 130-141): resolves
`DISK_STORAGE_PATH + "/" + fileId` (path resolution modelled as
`"/"`-joining), lists that directory and takes entry `[0]`.  A
listing failure (`none`: missing or unreadable directory) throws and
is caught, returning null; an empty listing makes `entries[0]`
undefined, so `join(filepath, undefined)` throws and is also caught,
returning null. -/
def getFilePathByFileId (diskStoragePath : String) (fileId : Nat)
    (listing : Option (List String)) : Option String :=
  match listing with
  | none => none
  | some [] => none
  | some (fileName :: _) =>
    some (diskStoragePath ++ "/" ++ toString fileId ++ "/" ++ fileName)

/-- `path.parse(p).base`: the substring after the last `'/'`. -/
def baseNameOf (p : String) : String :=
  String.mk ((p.data.reverse.takeWhile (fun c => c ≠ '/')).reverse)

/-- `path.parse(p).ext`: the suffix of the basename from its last
`'.'` (empty when the basename has no dot, or only a leading dot). -/
def extNameOf (p : String) : String :=
  let b := (baseNameOf p).data
  let tail := b.reverse.takeWhile (fun c => c ≠ '.')
  if tail.length < b.length then
    if b.length - tail.length - 1 = 0 then "" else "." ++ String.mk tail.reverse
  else ""

/-- The materialized file-details record of `getFileDetails`
(lines 91-97). -/
structure FileDetailsObject where
  base64 : String
  extensionName : String
  encoding : String
  originalName : String
  path : String
deriving DecidableEq, Repr

/-- Disk branch of `FileProvider.getFileDetails` (lines 105-119):
resolves the path via `getFilePathByFileId`, returns null when that
is null, otherwise reads the file as base64 (read modelled as a
function of the path) and fills the record. -/
def getFileDetailsDisk (diskStoragePath : String) (fileId : Nat)
    (listing : Option (List String)) (readFileBase64 : String → String) :
    Option FileDetailsObject :=
  match getFilePathByFileId diskStoragePath fileId listing with
  | none => none
  | some filepath =>
    some { base64 := readFileBase64 filepath, extensionName := extNameOf filepath,
           encoding := "base64", originalName := baseNameOf filepath, path := filepath }

/-- `const expireInTime = fileData.length * 5 <= 60 ? fileData.length * 5 : 60`
(line 478). -/
def expireInTime (n : Nat) : Nat :=
  if n * 5 ≤ 60 then n * 5 else 60

/-- Bucket branch of `FileProvider.getFile` (lines 70-76): presigns
the key `` `${id}/${original_name}` `` for `expiresIn` seconds (the
presigner is the opaque bucket collaborator, passed as a function). -/
def getFileBucket (presign : String → Nat → String) (fileData : Files)
    (expiresIn : Nat) : String :=
  presign (toString fileData.id ++ "/" ++ fileData.original_name) expiresIn

/-- Bucket-mode `FileProvider.getMultipleFiles` (lines 472-486):
computes `expireInTime` once from the batch length, fetches each
record's presigned URL with it, and pushes `{id, url}` only for
truthy (non-empty) URLs. -/
def getMultipleFilesBucket (presign : String → Nat → String)
    (fileData : List Files) : List (Nat × String) :=
  fileData.filterMap fun f =>
    let url := getFileBucket presign f (expireInTime fileData.length)
    if url = "" then none else some (f.id, url)

/-- `FileProvider.writeImageFile` (lines 458-461): the written path is
`` `${filePath.split(".")[0]}.jpg` ``, i.e. the original path
truncated at its first `'.'` with `.jpg` appended. -/
def jpgSiblingName (filePath : String) : String :=
  String.mk (filePath.data.takeWhile (fun c => c ≠ '.')) ++ ".jpg"

/-- The `while` loop of `checkImageSizeAndDecreaseImageQuality`
(lines 435-442).  `measure q` abstracts the size in KB reported by
`getFileSize` after the write of the image re-encoded at quality `q`
(sizes are rationals, as the source divides a byte count by 1000).
The returned pair is the final `newFilePath` and the list of writes
performed, each recorded as (quality used, path written). -/
def decreaseLoop (measure : Nat → Rat) (fileSize : Rat) (sizeOfFile : Rat)
    (quality : Nat) (filePath newFilePath : String) (writes : List (Nat × String)) :
    String × List (Nat × String) :=
  if _h : fileSize < sizeOfFile ∧ 0 < quality then
    let fileName := jpgSiblingName filePath
    decreaseLoop measure fileSize (measure quality) (quality - 2) filePath fileName
      (writes ++ [(quality, fileName)])
  else (newFilePath, writes)
termination_by quality
decreasing_by omega

/-- `FileProvider.checkImageSizeAndDecreaseImageQuality`
(lines 425-447): measures the file once (`initialSize`), then runs
the quality-decreasing loop from quality 100 with `newFilePath`
initialized to the original `filePath`. -/
def checkImageSizeAndDecreaseImageQuality (measure : Nat → Rat)
    (initialSize : Rat) (filePath : String) (fileSize : Rat) :
    String × List (Nat × String) :=
  decreaseLoop measure fileSize initialSize 100 filePath filePath []

end FileProvider

namespace FilesServiceProvider

/-- `FilesServiceProvider.getContentType` (file-provider.service.ts
lines 975-994): same `switch` as `FileProvider.getContentType` except
that it has NO `pdf` case, so `pdf` falls through to the default. -/
def getContentType (fileExtension : String) : String :=
  if jsToLowerCase fileExtension = "xml" then "application/xml"
  else if jsToLowerCase fileExtension = "png" ∨ jsToLowerCase fileExtension = "jpg"
      ∨ jsToLowerCase fileExtension = "jpeg" ∨ jsToLowerCase fileExtension = "gif" then
    "image/" ++ fileExtension
  else if jsToLowerCase fileExtension = "mp4" ∨ jsToLowerCase fileExtension = "avi"
      ∨ jsToLowerCase fileExtension = "mov" then
    "video/" ++ fileExtension
  else if jsToLowerCase fileExtension = "mp3" ∨ jsToLowerCase fileExtension = "mpga" then
    "audio/mp3"
  else "application/octet-stream"

/-- Bucket branch of `FilesServiceProvider.updateFileById`
(file-provider.service.ts lines 726-728): awaits
`uploadImage(base64, originalName)`, then fires
`deleteImage(getFileData.original_name)` WITHOUT awaiting it, so the
delete's outcome (`deleteOk`) can change the final bucket contents
but never the raised flag or the issued call trace.  Returns (raised
to caller, bucket-call trace, final bucket contents). -/
def updateFileByIdBucket (uploadOk deleteOk : Bool) (priorName newName : String)
    (objects : List String) : Bool × List BucketOp × List String :=
  if uploadOk then
    let afterUpload := newName :: objects.filter (fun k => k ≠ newName)
    let afterDelete :=
      if deleteOk then afterUpload.filter (fun k => k ≠ priorName) else afterUpload
    (false, [.upload newName, .delete priorName], afterDelete)
  else (true, [.upload newName], objects)

end FilesServiceProvider

/-! ## Supporting lemmas -/

lemma stripLitChars_append (p r : List Char) : stripLitChars p (p ++ r) = some r := by
  induction p with
  | nil => rfl
  | cons c cs ih => simp [stripLitChars, ih]

lemma takeWhile_append_cons_of_all (p : Char → Bool) (l₁ : List Char) (c : Char)
    (l₂ : List Char) (h₁ : ∀ x ∈ l₁, p x = true) (hc : p c = false) :
    (l₁ ++ c :: l₂).takeWhile p = l₁ := by
  induction l₁ with
  | nil => simp [List.takeWhile, hc]
  | cons a as ih =>
    have ha : p a = true := h₁ a (by simp)
    simp only [List.cons_append, List.takeWhile_cons, ha]
    simp [ih fun x hx => h₁ x (by simp [hx])]

lemma dropWhile_append_cons_of_all (p : Char → Bool) (l₁ : List Char) (c : Char)
    (l₂ : List Char) (h₁ : ∀ x ∈ l₁, p x = true) (hc : p c = false) :
    (l₁ ++ c :: l₂).dropWhile p = c :: l₂ := by
  induction l₁ with
  | nil => simp [List.dropWhile, hc]
  | cons a as ih =>
    have ha : p a = true := h₁ a (by simp)
    simp only [List.cons_append, List.dropWhile_cons, ha]
    simp [ih fun x hx => h₁ x (by simp [hx])]

lemma matchDataImageUri_constructed (sub payload : List Char) (hsub : sub ≠ [])
    (hw : ∀ c ∈ sub, isWordPlusChar c = true) (hp : payload ≠ []) :
    FileProvider.matchDataImageUri
        ("data:image/".toList ++ sub ++ ";base64,".toList ++ payload)
      = some (sub, payload) := by
  have hsplit : "data:image/".toList ++ sub ++ ";base64,".toList ++ payload
      = "data:image/".toList ++ (sub ++ (';' :: ("base64,".toList ++ payload))) := by
    simp
  have hsemi : isWordPlusChar ';' = false := by decide
  have hjoin : (';' :: ("base64,".toList ++ payload)) = ";base64,".toList ++ payload := rfl
  rw [FileProvider.matchDataImageUri, hsplit, stripLitChars_append, Option.some_bind]
  rw [dropWhile_append_cons_of_all isWordPlusChar sub ';' ("base64,".toList ++ payload) hw hsemi]
  rw [takeWhile_append_cons_of_all isWordPlusChar sub ';' ("base64,".toList ++ payload) hw hsemi]
  rw [hjoin, stripLitChars_append, Option.some_bind]
  simp [hsub, hp]

lemma filter_self_idem (l : List Nat) (p : Nat → Bool) :
    (l.filter p).filter p = l.filter p := by
  rw [List.filter_filter]
  exact List.filter_congr fun a _ => Bool.and_self (p a)

lemma filter_self_idem_str (l : List String) (p : String → Bool) :
    (l.filter p).filter p = l.filter p := by
  rw [List.filter_filter]
  exact List.filter_congr fun a _ => Bool.and_self (p a)

lemma deleteFile_disk_eq (st : StorageState) (fd : Files) :
    FileProvider.deleteFile .disk st fd
      = .ok ⟨st.diskDirs.filter (fun d => d ≠ fd.id), st.bucketObjects⟩ := by
  by_cases h : fd.id ∈ st.diskDirs
  · simp only [FileProvider.deleteFile, rmSync, if_pos h]
    rfl
  · have heq : List.filter (fun d => !decide (d = fd.id)) st.diskDirs = st.diskDirs :=
      List.filter_eq_self.mpr fun a ha => by
        simpa using fun hEq : a = fd.id => h (hEq ▸ ha)
    simp [FileProvider.deleteFile, rmSync, h, heq]
    rfl

lemma deleteFile_bucket_eq (st : StorageState) (fd : Files) :
    FileProvider.deleteFile .bucket st fd
      = .ok ⟨st.diskDirs,
          st.bucketObjects.filter
            (fun k => k ≠ toString fd.id ++ "/" ++ fd.original_name)⟩ := rfl

lemma cons_range_map (q k : Nat) (j : String) :
    (q, j) :: (List.range k).map (fun i => (q - 2 - 2 * i, j))
      = (List.range (k + 1)).map (fun i => (q - 2 * i, j)) := by
  rw [List.range_succ_eq_map, List.map_cons, List.map_map]
  refine congrArg₂ _ (by simp) ?_
  exact (List.map_congr_left fun a _ => by
    simp only [Function.comp_apply, Prod.mk.injEq]
    exact ⟨by omega, trivial⟩).symm

lemma decreaseLoop_spec (measure : Nat → Rat) (fileSize : Rat) :
    ∀ (quality : Nat) (sizeOfFile : Rat) (filePath newFilePath : String)
      (writes : List (Nat × String)),
    ∃ k : Nat,
      FileProvider.decreaseLoop measure fileSize sizeOfFile quality filePath
          newFilePath writes
        = (if k = 0 then newFilePath else FileProvider.jpgSiblingName filePath,
           writes ++ (List.range k).map
             (fun i => (quality - 2 * i, FileProvider.jpgSiblingName filePath)))
      ∧ (k = 0 ↔ ¬(fileSize < sizeOfFile ∧ 0 < quality))
      ∧ (∀ i, i + 1 < k → fileSize < measure (quality - 2 * i))
      ∧ (∀ i, i < k → 0 < quality - 2 * i)
      ∧ k ≤ (quality + 1) / 2
      ∧ ¬(fileSize < (if k = 0 then sizeOfFile else measure (quality - 2 * (k - 1)))
          ∧ 0 < quality - 2 * k) := by
  intro quality
  induction quality using Nat.strong_induction_on with
  | _ q ih =>
    intro sizeOfFile filePath newFilePath writes
    by_cases hg : fileSize < sizeOfFile ∧ 0 < q
    · obtain ⟨k', heq, hiff, hmeas, hposq, hbound, hexit⟩ :=
        ih (q - 2) (by omega) (measure q) filePath (FileProvider.jpgSiblingName filePath)
          (writes ++ [(q, FileProvider.jpgSiblingName filePath)])
      refine ⟨k' + 1, ?_, ?_, ?_, ?_, ?_, ?_⟩
      · rw [FileProvider.decreaseLoop, dif_pos hg, heq]
        refine congrArg₂ _ (by simp [ite_self]) ?_
        rw [List.append_assoc]
        refine congrArg _ ?_
        rw [List.singleton_append, cons_range_map]
      · simp [hg]
      · intro i hi
        match i with
        | 0 =>
          have hk : k' ≠ 0 := by omega
          have hcond : fileSize < measure q ∧ 0 < q - 2 := by
            by_contra hc
            exact hk (hiff.mpr hc)
          exact hcond.1
        | i' + 1 =>
          have harg : q - 2 * (i' + 1) = q - 2 - 2 * i' := by omega
          rw [harg]
          exact hmeas i' (by omega)
      · intro i hi
        match i with
        | 0 => omega
        | i' + 1 =>
          have := hposq i' (by omega)
          omega
      · omega
      · simp only [Nat.add_eq_zero, one_ne_zero, and_false, if_false, Nat.add_sub_cancel]
        by_cases hk : k' = 0
        · subst hk
          simp only [if_pos rfl] at hexit
          have harg : q - 2 * 0 = q := by omega
          rw [harg]
          have harg2 : (q - 2) - 2 * 0 = q - 2 * 1 := by omega
          rw [harg2] at hexit
          exact hexit
        · simp only [if_neg hk] at hexit
          have harg : q - 2 * k' = q - 2 - 2 * (k' - 1) := by omega
          rw [harg]
          have harg2 : (q - 2) - 2 * k' = q - 2 * (k' + 1) := by omega
          rw [harg2] at hexit
          exact hexit
    · refine ⟨0, ?_, by simp [hg], by omega, by omega, by omega, ?_⟩
      · rw [FileProvider.decreaseLoop, dif_neg hg]
        simp
      · simpa using hg

/-! ## Claim theorems -/

/-- C1 counterexample: the claim asserts `getContentType "PNG" = "image/png"`,
but the code interpolates the original (uppercase) extension into the
template, producing `"image/PNG"`. -/
theorem getContentType_PNG_not_lowercased :
    FileProvider.getContentType "PNG" = "image/PNG" ∧
    ("image/PNG" : String) ≠ "image/png" := by
  decide

/-- C1 (amended): `getContentType` matches case-insensitively
(switching on the lowercased extension), mapping xml to
application/xml, png/jpg/jpeg/gif to `"image/" ++ ext` with the
ORIGINAL-case extension, mp4/avi/mov to `"video/" ++ ext` likewise,
mp3/mpga to audio/mp3, pdf to application/pdf, and everything else to
application/octet-stream; in particular `getContentType "PNG" =
"image/PNG"` (not `"image/png"`). -/
theorem getContentType_spec (ext : String) :
    (jsToLowerCase ext = "xml" → FileProvider.getContentType ext = "application/xml") ∧
    (jsToLowerCase ext = "png" ∨ jsToLowerCase ext = "jpg" ∨ jsToLowerCase ext = "jpeg"
        ∨ jsToLowerCase ext = "gif" →
      FileProvider.getContentType ext = "image/" ++ ext) ∧
    (jsToLowerCase ext = "mp4" ∨ jsToLowerCase ext = "avi" ∨ jsToLowerCase ext = "mov" →
      FileProvider.getContentType ext = "video/" ++ ext) ∧
    (jsToLowerCase ext = "mp3" ∨ jsToLowerCase ext = "mpga" →
      FileProvider.getContentType ext = "audio/mp3") ∧
    (jsToLowerCase ext = "pdf" → FileProvider.getContentType ext = "application/pdf") ∧
    (jsToLowerCase ext ∉ ["xml", "png", "jpg", "jpeg", "gif", "mp4", "avi", "mov",
        "mp3", "mpga", "pdf"] →
      FileProvider.getContentType ext = "application/octet-stream") ∧
    FileProvider.getContentType "PNG" = "image/PNG" := by
  refine ⟨fun h => ?_, fun h => ?_, fun h => ?_, fun h => ?_, fun h => ?_, fun h => ?_, by decide⟩
  · simp [FileProvider.getContentType, h]
  · rcases h with h | h | h | h <;> simp [FileProvider.getContentType, h]
  · rcases h with h | h | h <;> simp [FileProvider.getContentType, h]
  · rcases h with h | h <;> simp [FileProvider.getContentType, h]
  · simp [FileProvider.getContentType, h]
  · simp only [List.mem_cons, List.not_mem_nil, or_false, not_or] at h
    obtain ⟨h1, h2, h3, h4, h5, h6, h7, h8, h9, h10, h11⟩ := h
    simp [FileProvider.getContentType, h1, h2, h3, h4, h5, h6, h7, h8, h9, h10, h11]

/-- C1 witness: concrete instantiation of `getContentType_spec`. -/
theorem getContentType_spec_witness :
    jsToLowerCase "XML" = "xml" ∧
    FileProvider.getContentType "XML" = "application/xml" :=
  ⟨by decide, (getContentType_spec "XML").1 (by decide)⟩

/-- C2 counterexample: on a non-matching input the claim asserts the
returned extension is `""`, but the code returns `"." + "" = "."`
(one dot); the content is passed through unchanged. -/
theorem extractBase64img_nonmatch_extension_is_dot :
    FileProvider.extractBase64img "not-a-data-uri".toList
      = (['.'], "not-a-data-uri".toList) ∧
    (['.'] : List Char) ≠ [] := by
  decide

/-- C2 (amended): on inputs matching
`data:image/<subtype>;base64,<payload>` the extractor returns the
payload and the extension `'.'` followed by the subtype with the two
overrides (jpeg gives jpg, svg+xml gives svg, other subtypes used
verbatim); on a non-matching input it returns the original input as
content with extension `"."` (a lone dot, not the empty string). -/
theorem extractBase64img_spec (sub payload : List Char) (hsub : sub ≠ [])
    (hw : ∀ c ∈ sub, isWordPlusChar c = true) (hp : payload ≠ []) :
    FileProvider.extractBase64img
        ("data:image/".toList ++ sub ++ ";base64,".toList ++ payload)
      = ('.' :: (match FileProvider.baseTypeLookup sub with
                 | some e => e
                 | none => sub), payload) ∧
    FileProvider.extractBase64img "data:image/jpeg;base64,AAAA".toList
      = ('.' :: "jpg".toList, "AAAA".toList) ∧
    FileProvider.extractBase64img "data:image/svg+xml;base64,BBBB".toList
      = ('.' :: "svg".toList, "BBBB".toList) ∧
    (∀ d : List Char, FileProvider.matchDataImageUri d = none →
      FileProvider.extractBase64img d = (['.'], d)) := by
  refine ⟨?_, by decide, by decide, ?_⟩
  · rw [FileProvider.extractBase64img, matchDataImageUri_constructed sub payload hsub hw hp]
  · intro d hd
    rw [FileProvider.extractBase64img, hd]

/-- C2 witness: concrete instantiation of `extractBase64img_spec` at a
subtype without an override. -/
theorem extractBase64img_spec_witness :
    ("webp".toList ≠ ([] : List Char) ∧ "CCCC".toList ≠ ([] : List Char)) ∧
    FileProvider.extractBase64img
        ("data:image/".toList ++ "webp".toList ++ ";base64,".toList ++ "CCCC".toList)
      = ('.' :: "webp".toList, "CCCC".toList) :=
  ⟨⟨by decide, by decide⟩,
    (extractBase64img_spec "webp".toList "CCCC".toList (by decide) (by decide)
      (by decide)).1⟩

/-- C10 counterexample: the two `getContentType` implementations
disagree at extension `"pdf"` because `FilesServiceProvider`'s switch
has no pdf case. -/
theorem getContentType_duplicates_disagree_on_pdf :
    FileProvider.getContentType "pdf" = "application/pdf" ∧
    FilesServiceProvider.getContentType "pdf" = "application/octet-stream" ∧
    FileProvider.getContentType "pdf" ≠ FilesServiceProvider.getContentType "pdf" := by
  decide

/-- C10 (amended): the two implementations agree on every extension
whose lowercase form is not "pdf"; on extensions lowering to "pdf"
they disagree (`application/pdf` versus `application/octet-stream`). -/
theorem getContentType_agreement (ext : String) :
    (jsToLowerCase ext ≠ "pdf" →
      FileProvider.getContentType ext = FilesServiceProvider.getContentType ext) ∧
    (jsToLowerCase ext = "pdf" →
      FileProvider.getContentType ext = "application/pdf" ∧
      FilesServiceProvider.getContentType ext = "application/octet-stream") := by
  constructor
  · intro h
    unfold FileProvider.getContentType FilesServiceProvider.getContentType
    split_ifs with h1 h2 h3 h4 <;> rfl
  · intro h
    constructor <;> simp [FileProvider.getContentType, FilesServiceProvider.getContentType, h]

/-- C10 witness: concrete instantiation of `getContentType_agreement`. -/
theorem getContentType_agreement_witness :
    jsToLowerCase "png" ≠ "pdf" ∧
    FileProvider.getContentType "png" = FilesServiceProvider.getContentType "png" :=
  ⟨by decide, (getContentType_agreement "png").1 (by decide)⟩

/-- C3 counterexample: with directory creation succeeding and the
write failing, `uploadFiles` (disk mode) raises nothing to its caller
— the write error is only seen by the fire-and-forget callback — so
the claim that a write failure raises an error is false. -/
theorem uploadFilesDisk_write_failure_not_raised :
    (FileProvider.uploadFilesDisk true false).raised = false := by
  decide

/-- C3 (amended): in disk mode `uploadFiles` raises an error to its
caller when directory creation fails; a failure of the
(fire-and-forget) file write is NOT raised to the caller, but the
per-id directory is recursively removed by the write callback, and on
full success directory and file both exist with nothing raised. -/
theorem uploadFilesDisk_spec (mkdirOk writeOk : Bool) :
    (mkdirOk = false →
      FileProvider.uploadFilesDisk mkdirOk writeOk
        = { raised := true, dirExists := false, fileExists := false }) ∧
    (mkdirOk = true → writeOk = false →
      FileProvider.uploadFilesDisk mkdirOk writeOk
        = { raised := false, dirExists := false, fileExists := false }) ∧
    (mkdirOk = true → writeOk = true →
      FileProvider.uploadFilesDisk mkdirOk writeOk
        = { raised := false, dirExists := true, fileExists := true }) := by
  refine ⟨fun h => ?_, fun h hw => ?_, fun h hw => ?_⟩
  · simp [FileProvider.uploadFilesDisk, h]
  · simp [FileProvider.uploadFilesDisk, h, hw]
  · simp [FileProvider.uploadFilesDisk, h, hw]

/-- C3 witness: concrete instantiation of `uploadFilesDisk_spec` at a
failing mkdir. -/
theorem uploadFilesDisk_spec_witness :
    (false = false) ∧
    FileProvider.uploadFilesDisk false true
      = { raised := true, dirExists := false, fileExists := false } :=
  ⟨rfl, (uploadFilesDisk_spec false true).1 rfl⟩

/-- C4 counterexample: in bucket mode `FileProvider.updateFile` issues
a single upload and no delete of the prior object, so the claim that
the update operation deletes the prior object after uploading fails
on this implementation. -/
theorem updateFileBucket_never_deletes :
    FileProvider.updateFileBucket true 7 "a.png"
      = (false, [BucketOp.upload "7/a.png"]) ∧
    (FileProvider.updateFileBucket true 7 "a.png").2.all
      (fun op => !op.isDelete) = true := by
  decide

/-- C4 (amended): in bucket mode `FilesServiceProvider.updateFileById`
uploads the new object and then fires a delete of the prior object
under its previously known name, and a failure of that un-awaited
delete after a successful upload is never raised to the caller (the
prior object is then left orphaned in the bucket); but
`FileProvider.updateFile`'s bucket branch only uploads and never
deletes the prior object. -/
theorem updateFileByIdBucket_spec (deleteOk : Bool) (priorName newName : String)
    (objects : List String) :
    ((FilesServiceProvider.updateFileByIdBucket true deleteOk priorName newName
        objects).1 = false) ∧
    ((FilesServiceProvider.updateFileByIdBucket true deleteOk priorName newName
        objects).2.1 = [BucketOp.upload newName, BucketOp.delete priorName]) ∧
    (deleteOk = false → priorName ≠ newName → priorName ∈ objects →
      priorName ∈ (FilesServiceProvider.updateFileByIdBucket true deleteOk priorName
        newName objects).2.2) ∧
    (∀ uploadOk : Bool, ∀ fileId : Nat, ∀ originalName : String,
      (FileProvider.updateFileBucket uploadOk fileId originalName).2.all
        (fun op => !op.isDelete) = true) := by
  refine ⟨by simp [FilesServiceProvider.updateFileByIdBucket],
    by simp [FilesServiceProvider.updateFileByIdBucket], fun hd hne hmem => ?_, ?_⟩
  · simp [FilesServiceProvider.updateFileByIdBucket, hd, hmem, hne]
  · intro uploadOk fileId originalName
    cases uploadOk <;> simp [FileProvider.updateFileBucket, BucketOp.isDelete]

/-- C4 witness: concrete instantiation of `updateFileByIdBucket_spec`
with a failed delete leaving the prior object orphaned. -/
theorem updateFileByIdBucket_spec_witness :
    (("old.png" : String) ≠ "new.png" ∧ "old.png" ∈ ["old.png", "x.png"]) ∧
    "old.png" ∈ (FilesServiceProvider.updateFileByIdBucket true false "old.png"
      "new.png" ["old.png", "x.png"]).2.2 :=
  ⟨⟨by decide, by decide⟩,
    (updateFileByIdBucket_spec false "old.png" "new.png" ["old.png", "x.png"]).2.2.1
      rfl (by decide) (by decide)⟩

/-- C5: `getMultipleFiles` in bucket mode presigns every record's URL
with expiration `min 60 (n * 5)` seconds for a batch of `n` records;
in particular a batch of 3 gets 15 seconds and a batch of 20 gets the
60-second cap. -/
theorem getMultipleFilesBucket_presign_expiry (presign : String → Nat → String)
    (fileData : List Files) :
    FileProvider.getMultipleFilesBucket presign fileData
      = fileData.filterMap (fun f =>
          let url := presign (toString f.id ++ "/" ++ f.original_name)
            (min 60 (fileData.length * 5))
          if url = "" then none else some (f.id, url)) ∧
    FileProvider.expireInTime 3 = 15 ∧
    FileProvider.expireInTime 20 = 60 := by
  refine ⟨?_, by decide, by decide⟩
  have hmin : FileProvider.expireInTime fileData.length
      = min 60 (fileData.length * 5) := by
    rw [FileProvider.expireInTime]
    split_ifs with h <;> omega
  unfold FileProvider.getMultipleFilesBucket FileProvider.getFileBucket
  rw [hmin]

/-- C8: in disk mode, when the id's directory is missing/unreadable
(listing fails) or empty, `getFilePathByFileId` returns null rather
than throwing, and `getFileDetails` consequently returns null; when
the directory has entries it returns the full path of the first
entry. -/
theorem getFilePathByFileId_spec (diskStoragePath : String) (fileId : Nat)
    (listing : Option (List String)) (readFileBase64 : String → String) :
    (listing = none ∨ listing = some [] →
      FileProvider.getFilePathByFileId diskStoragePath fileId listing = none) ∧
    (∀ fileName rest, listing = some (fileName :: rest) →
      FileProvider.getFilePathByFileId diskStoragePath fileId listing
        = some (diskStoragePath ++ "/" ++ toString fileId ++ "/" ++ fileName)) ∧
    (FileProvider.getFileDetailsDisk diskStoragePath fileId listing readFileBase64 = none
      ↔ FileProvider.getFilePathByFileId diskStoragePath fileId listing = none) := by
  refine ⟨fun h => ?_, fun fileName rest h => ?_, ?_⟩
  · rcases h with h | h <;> simp [FileProvider.getFilePathByFileId, h]
  · simp [FileProvider.getFilePathByFileId, h]
  · unfold FileProvider.getFileDetailsDisk
    cases h : FileProvider.getFilePathByFileId diskStoragePath fileId listing <;> simp

/-- C8 witness: concrete instantiation of `getFilePathByFileId_spec`
at an empty directory listing. -/
theorem getFilePathByFileId_spec_witness :
    ((some ([] : List String) = none ∨ some ([] : List String) = some []) ∧
      FileProvider.getFilePathByFileId "/storage" 4 (some []) = none) ∧
    FileProvider.getFilePathByFileId "/storage" 4 (some ["a.png"])
      = some ("/storage" ++ "/" ++ toString 4 ++ "/" ++ "a.png") :=
  ⟨⟨Or.inr rfl, (getFilePathByFileId_spec "/storage" 4 (some []) id).1 (Or.inr rfl)⟩,
    (getFilePathByFileId_spec "/storage" 4 (some ["a.png"]) id).2.1 "a.png" [] rfl⟩

/-- C6: `checkImageSizeAndDecreaseImageQuality` returns the original
`filePath` with no writes (and the quality untouched) whenever the
initially measured size is within the target, and otherwise performs
its writes at qualities 100, 98, 96, … (steps of −2 from 100), every
write going to the `.jpg` sibling path obtained by truncating the
original path at its first `'.'`, with each iteration beyond the
first entered only while the previously measured size still exceeds
the target. -/
theorem checkImageSizeAndDecreaseImageQuality_spec (measure : Nat → Rat)
    (initialSize fileSize : Rat) (filePath : String) :
    (initialSize ≤ fileSize →
      FileProvider.checkImageSizeAndDecreaseImageQuality measure initialSize filePath
        fileSize = (filePath, [])) ∧
    ∃ k : Nat,
      (FileProvider.checkImageSizeAndDecreaseImageQuality measure initialSize filePath
          fileSize).2
        = (List.range k).map
            (fun i => (100 - 2 * i, FileProvider.jpgSiblingName filePath)) ∧
      (FileProvider.checkImageSizeAndDecreaseImageQuality measure initialSize filePath
          fileSize).1
        = (if k = 0 then filePath else FileProvider.jpgSiblingName filePath) ∧
      (0 < k ↔ fileSize < initialSize) ∧
      (∀ i, i + 1 < k → fileSize < measure (100 - 2 * i)) := by
  obtain ⟨k, heq, hiff, hmeas, hposq, hbound, hexit⟩ :=
    decreaseLoop_spec measure fileSize 100 initialSize filePath filePath []
  have hck : FileProvider.checkImageSizeAndDecreaseImageQuality measure initialSize
      filePath fileSize
      = FileProvider.decreaseLoop measure fileSize initialSize 100 filePath filePath []
    := rfl
  constructor
  · intro hle
    have hk0 : k = 0 := hiff.mpr fun hc => absurd hc.1 (not_lt.mpr hle)
    rw [hck, heq, hk0]
    simp
  · refine ⟨k, ?_, ?_, ?_, hmeas⟩
    · rw [hck, heq]
      simp
    · rw [hck, heq]
    · constructor
      · intro hk
        by_contra hnlt
        exact absurd (hiff.mpr fun hc => hnlt hc.1) (by omega)
      · intro hlt
        rcases Nat.eq_zero_or_pos k with h0 | hpos
        · exact absurd ⟨hlt, by norm_num⟩ (hiff.mp h0)
        · exact hpos

/-- C6 witness: with the measured size within the target, the routine
returns the original path with no writes. -/
theorem checkImageSizeAndDecreaseImageQuality_spec_witness :
    ((1 : Rat) ≤ 2) ∧
    FileProvider.checkImageSizeAndDecreaseImageQuality (fun _ => 0) 1 "img.png" 2
      = ("img.png", []) :=
  ⟨by norm_num,
    (checkImageSizeAndDecreaseImageQuality_spec (fun _ => 0) 1 2 "img.png").1
      (by norm_num)⟩

/-- C7: the quality-reduction loop always terminates after at most 50
writes (quality decreases by 2 per iteration from 100), and at exit
either the last measured size meets the budget or the quality is
exhausted (reached 0), possibly without meeting the budget. -/
theorem checkImageSizeAndDecreaseImageQuality_terminates (measure : Nat → Rat)
    (initialSize fileSize : Rat) (filePath : String) :
    (FileProvider.checkImageSizeAndDecreaseImageQuality measure initialSize filePath
        fileSize).2.length ≤ 50 ∧
    ∃ k : Nat,
      (FileProvider.checkImageSizeAndDecreaseImageQuality measure initialSize filePath
        fileSize).2.length = k ∧
      ((if k = 0 then initialSize else measure (100 - 2 * (k - 1))) ≤ fileSize
        ∨ 100 - 2 * k = 0) := by
  obtain ⟨k, heq, hiff, hmeas, hposq, hbound, hexit⟩ :=
    decreaseLoop_spec measure fileSize 100 initialSize filePath filePath []
  have hck : FileProvider.checkImageSizeAndDecreaseImageQuality measure initialSize
      filePath fileSize
      = FileProvider.decreaseLoop measure fileSize initialSize 100 filePath filePath []
    := rfl
  have hlen : (FileProvider.checkImageSizeAndDecreaseImageQuality measure initialSize
      filePath fileSize).2.length = k := by
    rw [hck, heq]
    simp
  refine ⟨by rw [hlen]; omega, k, hlen, ?_⟩
  rcases not_and_or.mp hexit with h | h
  · exact Or.inl (not_lt.mp h)
  · exact Or.inr (by omega)

/-- C9: deleting the same file record twice never raises — the first
call returns a state, the second call succeeds on that state, and the
second delete leaves the state unchanged (a no-op), in both disk mode
(`rmSync` with `force: true` treats an absent path as success) and
bucket mode (the spec-modelled lenient collaborator delete). -/
theorem deleteFile_idempotent (storageType : StorageType) (st : StorageState)
    (fileData : Files) :
    ∃ st₁ : StorageState,
      FileProvider.deleteFile storageType st fileData = .ok st₁ ∧
      FileProvider.deleteFile storageType st₁ fileData = .ok st₁ := by
  cases storageType
  · refine ⟨_, deleteFile_disk_eq st fileData, ?_⟩
    rw [deleteFile_disk_eq]
    congr 1
    congr 1
    exact filter_self_idem _ _
  · refine ⟨_, deleteFile_bucket_eq st fileData, ?_⟩
    rw [deleteFile_bucket_eq]
    congr 1
    congr 1
    exact filter_self_idem_str _ _
